import Mathlib

/-!
Shallow embedding of the pixel-compositing pipeline of
`mirage-tank-images` (`src/main.go`).

Rasters are modelled as dimensioned pixel functions over `Nat`
coordinates.  Go's `image.Gray.GrayAt` returns the zero colour for a
coordinate outside the raster's bounds; `Gray.grayAt` mirrors that.
All images built by the program have their bounds anchored at the
origin, so a raster is a width, a height and a pixel function.

Machine arithmetic: Go `uint8(x)` for an integer `x` is reduction
mod 2^8 and is written `% 256`; `uint8(f)` for a `float64` `f` is
truncation toward zero (its out-of-range behaviour is
implementation-specific, and every conversion the program performs is
in range, so it is modelled as truncation).  The `float64` arithmetic
of `AdjustLightness` is modelled over `ℚ`: every value the pipeline
feeds it (an integer in [0,255] scaled by ±0.5 and shifted by 127.5)
is exactly representable in binary floating point, so the rational
computation agrees bit-for-bit with the Go one.
-/

/-- Truncation of a rational toward zero, the semantics of Go's
`float64` → integer conversion (for in-range values). -/
def goTrunc (q : ℚ) : Int := Int.tdiv q.num q.den

/-- A grayscale raster (`*image.Gray` with origin-anchored bounds):
width, height and the stored byte at each coordinate. -/
structure Gray where
  width : Nat
  height : Nat
  pix : Nat → Nat → Nat

/-- `GrayAt`: reading a pixel; out-of-bounds coordinates read as the
zero colour, exactly as in Go's `image` package. -/
def Gray.grayAt (g : Gray) (x y : Nat) : Nat :=
  if x < g.width ∧ y < g.height then g.pix x y else 0

/-- Build a gray raster of the given size from a pixel formula;
`image.NewGray` zero-fills, and the loops of every stage write only
in-bounds pixels, so out-of-bounds storage is 0. -/
def mkGray (w h : Nat) (f : Nat → Nat → Nat) : Gray :=
  ⟨w, h, fun x y => if x < w ∧ y < h then f x y else 0⟩

/-- A raster is valid when every read yields a byte.  Go's `uint8`
storage guarantees this for every real raster. -/
def Gray.Valid (g : Gray) : Prop :=
  ∀ x y : Nat, g.grayAt x y ≤ 255

/-- Two rasters conform when they have identical width and height
(spec glossary: "conformant rasters"). -/
def Conformant (g₁ g₂ : Gray) : Prop :=
  g₁.width = g₂.width ∧ g₁.height = g₂.height

/-- Raster equality `==`: same dimensions and the same value at every
pixel read. -/
def Gray.eqv (g₁ g₂ : Gray) : Prop :=
  g₁.width = g₂.width ∧ g₁.height = g₂.height ∧
    ∀ x y : Nat, g₁.grayAt x y = g₂.grayAt x y

/-- The constant raster. -/
def constGray (w h v : Nat) : Gray := mkGray w h (fun _ _ => v)

/-- An RGB raster as the pipeline reads it: per-channel 16-bit codec
values, as returned by Go's `Color.RGBA()` (each ≤ 65535). -/
structure RGBImage where
  width : Nat
  height : Nat
  r : Nat → Nat → Nat
  g : Nat → Nat → Nat
  b : Nat → Nat → Nat

/-- The output raster (`*image.NRGBA`): four byte channels. -/
structure NRGBA where
  width : Nat
  height : Nat
  r : Nat → Nat → Nat
  g : Nat → Nat → Nat
  b : Nat → Nat → Nat
  a : Nat → Nat → Nat

/-- `clamp` from `src/main.go`: clamp an integer into `[mn, mx]`. -/
def clamp (value mn mx : Int) : Int :=
  if value < mn then mn else if value > mx then mx else value

/-- `Desaturate` (`src/main.go` lines 15–29): per pixel, take the
16-bit channel max and min, truncate each to 8 bits by `>> 8`, and
average with truncating division; `uint8(..)` is `% 256`. -/
def Desaturate (img : RGBImage) : Gray :=
  mkGray img.width img.height (fun x y =>
    let maxVal := (Nat.max (Nat.max (img.r x y) (img.g x y)) (img.b x y)) >>> 8
    let minVal := (Nat.min (Nat.min (img.r x y) (img.g x y)) (img.b x y)) >>> 8
    ((maxVal + minVal) / 2) % 256)

/-- The `rt > 0` branch of `AdjustLightness`:
`uint8(float64(gray)*(1-rt) + 255*rt)`. -/
def adjustPixelPos (rt : ℚ) (v : Nat) : Nat :=
  (goTrunc ((v : ℚ) * (1 - rt) + 255 * rt)).toNat

/-- The `rt ≤ 0` branch of `AdjustLightness`:
`uint8(float64(gray) * (1 + rt))`. -/
def adjustPixelNonpos (rt : ℚ) (v : Nat) : Nat :=
  (goTrunc ((v : ℚ) * (1 + rt))).toNat

/-- The per-pixel mapping of `AdjustLightness` (`src/main.go`
lines 40–44). -/
def adjustPixel (rt : ℚ) (v : Nat) : Nat :=
  if rt > 0 then adjustPixelPos rt v else adjustPixelNonpos rt v

/-- `AdjustLightness` (`src/main.go` lines 32–49). -/
def AdjustLightness (img : Gray) (rt : ℚ) : Gray :=
  mkGray img.width img.height (fun x y => adjustPixel rt (img.grayAt x y))

/-- `Invert` (`src/main.go` lines 52–63): per pixel `255 - gray`. -/
def Invert (img : Gray) : Gray :=
  mkGray img.width img.height (fun x y => 255 - img.grayAt x y)

/-- `LinearDodgeBlend` (`src/main.go` lines 66–79): result has the
first operand's bounds; per pixel `uint8(clamp(X+Y, 0, 255))`. -/
def LinearDodgeBlend (imgX imgY : Gray) : Gray :=
  mkGray imgX.width imgX.height (fun x y =>
    (clamp ((imgX.grayAt x y : Int) + (imgY.grayAt x y : Int)) 0 255).toNat % 256)

/-- `DivideBlend` (`src/main.go` lines 82–100): result has the first
operand's bounds; per pixel 255 when the divisor is 0, else
`uint8(clamp(Y*255/X, 0, 255))` (Go `int` arithmetic; operands are
non-negative, so Go's truncating division agrees with `Int./`). -/
def DivideBlend (imgX imgY : Gray) : Gray :=
  mkGray imgX.width imgX.height (fun x y =>
    if imgX.grayAt x y = 0 then 255
    else (clamp ((imgY.grayAt x y : Int) * 255 / (imgX.grayAt x y : Int)) 0 255).toNat % 256)

/-- `AddMask` (`src/main.go` lines 103–115): result has the first
operand's bounds; per pixel `(g, g, g, alpha)` with `g` read from the
first operand and `alpha` from the second.  `image.NewNRGBA`
zero-fills, so out-of-bounds storage is 0. -/
def AddMask (imgX imgY : Gray) : NRGBA :=
  { width := imgX.width
    height := imgX.height
    r := fun x y => if x < imgX.width ∧ y < imgX.height then imgX.grayAt x y else 0
    g := fun x y => if x < imgX.width ∧ y < imgX.height then imgX.grayAt x y else 0
    b := fun x y => if x < imgX.width ∧ y < imgX.height then imgX.grayAt x y else 0
    a := fun x y => if x < imgX.width ∧ y < imgX.height then imgY.grayAt x y else 0 }

/-- The pixel pipeline of `Build` (`src/main.go` lines 149–159),
after decode and resize: desaturate both sources, bias and invert,
linear-dodge, divide, compose. -/
def BuildPipeline (imgA imgB : RGBImage) : NRGBA :=
  let grayImgA := Desaturate imgA
  let grayImgB := Desaturate imgB
  let imgA2 := Invert (AdjustLightness grayImgA (1/2))
  let imgB2 := AdjustLightness grayImgB (-(1/2))
  let linearDodge := LinearDodgeBlend imgA2 imgB2
  let divided := DivideBlend linearDodge imgB2
  AddMask divided linearDodge

/-- A 1×1 RGB raster whose three 8-bit channels are `v`; the codec
reports the 16-bit value `v * 0x101`. -/
def rgb1 (v : Nat) : RGBImage :=
  ⟨1, 1, fun _ _ => v * 257, fun _ _ => v * 257, fun _ _ => v * 257⟩

/-! ### Helper lemmas -/

lemma goTrunc_eq_floor {q : ℚ} (h : 0 ≤ q) : goTrunc q = ⌊q⌋ := by
  rw [goTrunc, Rat.floor_def]
  exact Int.tdiv_eq_ediv (Rat.num_nonneg.mpr h) (Int.ofNat_nonneg q.den)

lemma goTrunc_eval (z : ℤ) {q : ℚ} (h0 : 0 ≤ z) (h1 : (z : ℚ) ≤ q)
    (h2 : q < (z : ℚ) + 1) : goTrunc q = z := by
  have hq : 0 ≤ q := le_trans (by exact_mod_cast h0) h1
  rw [goTrunc_eq_floor hq]
  exact Int.floor_eq_iff.mpr ⟨h1, h2⟩

lemma adjustPixel_pos_eval (v z : Nat) {t : ℚ} (h : 0 < t)
    (h1 : (z : ℚ) ≤ (v : ℚ) * (1 - t) + 255 * t)
    (h2 : (v : ℚ) * (1 - t) + 255 * t < (z : ℚ) + 1) :
    adjustPixel t v = z := by
  have hz : goTrunc ((v : ℚ) * (1 - t) + 255 * t) = (z : ℤ) :=
    goTrunc_eval (z : ℤ) (Int.ofNat_nonneg z) (by push_cast; exact_mod_cast h1)
      (by push_cast; exact_mod_cast h2)
  simp [adjustPixel, adjustPixelPos, h, hz]

lemma adjustPixel_nonpos_eval (v z : Nat) {t : ℚ} (h : t ≤ 0)
    (h1 : (z : ℚ) ≤ (v : ℚ) * (1 + t))
    (h2 : (v : ℚ) * (1 + t) < (z : ℚ) + 1) :
    adjustPixel t v = z := by
  have hz : goTrunc ((v : ℚ) * (1 + t)) = (z : ℤ) :=
    goTrunc_eval (z : ℤ) (Int.ofNat_nonneg z) (by push_cast; exact_mod_cast h1)
      (by push_cast; exact_mod_cast h2)
  simp [adjustPixel, adjustPixelNonpos, not_lt.mpr h, hz]

lemma grayAt_mkGray (w h : Nat) (f : Nat → Nat → Nat) (x y : Nat) :
    (mkGray w h f).grayAt x y = if x < w ∧ y < h then f x y else 0 := by
  simp only [mkGray, Gray.grayAt]
  split <;> simp_all

lemma Desaturate_width (img : RGBImage) : (Desaturate img).width = img.width := rfl
lemma Desaturate_height (img : RGBImage) : (Desaturate img).height = img.height := rfl
lemma AdjustLightness_width (g : Gray) (t : ℚ) : (AdjustLightness g t).width = g.width := rfl
lemma AdjustLightness_height (g : Gray) (t : ℚ) : (AdjustLightness g t).height = g.height := rfl
lemma Invert_width (g : Gray) : (Invert g).width = g.width := rfl
lemma Invert_height (g : Gray) : (Invert g).height = g.height := rfl
lemma LinearDodgeBlend_width (g₁ g₂ : Gray) : (LinearDodgeBlend g₁ g₂).width = g₁.width := rfl
lemma LinearDodgeBlend_height (g₁ g₂ : Gray) : (LinearDodgeBlend g₁ g₂).height = g₁.height := rfl
lemma DivideBlend_width (g₁ g₂ : Gray) : (DivideBlend g₁ g₂).width = g₁.width := rfl
lemma DivideBlend_height (g₁ g₂ : Gray) : (DivideBlend g₁ g₂).height = g₁.height := rfl

lemma mkGray_width (w h : Nat) (f : Nat → Nat → Nat) : (mkGray w h f).width = w := rfl

lemma mkGray_height (w h : Nat) (f : Nat → Nat → Nat) : (mkGray w h f).height = h := rfl

lemma goTrunc_intCast (z : ℤ) : goTrunc ((z : ℤ) : ℚ) = z := by
  rw [goTrunc, Rat.num_intCast, Rat.den_intCast]
  exact Int.tdiv_one z

lemma goTrunc_natCast (v : Nat) : goTrunc ((v : ℕ) : ℚ) = (v : ℤ) := by
  rw [show ((v : ℕ) : ℚ) = (((v : ℕ) : ℤ) : ℚ) by push_cast; ring]
  exact goTrunc_intCast (v : ℤ)

lemma clamp_of_mem {v : Int} (h0 : 0 ≤ v) (h1 : v ≤ 255) : clamp v 0 255 = v := by
  rw [clamp, if_neg (not_lt.mpr h0), if_neg (not_lt.mpr h1)]

lemma clamp_byte {v : Nat} (h : v ≤ 255) : (clamp (v : ℤ) 0 255).toNat % 256 = v := by
  rw [clamp_of_mem (Int.ofNat_nonneg v) (by exact_mod_cast h), Int.toNat_natCast,
    Nat.mod_eq_of_lt (by omega)]

lemma constGray_valid (w h v : Nat) (hv : v ≤ 255) : (constGray w h v).Valid := by
  intro x y
  rw [constGray, grayAt_mkGray]
  split
  · exact hv
  · exact Nat.zero_le 255

lemma adjustPixel_zero (v : Nat) : adjustPixel 0 v = v := by
  rw [adjustPixel, if_neg (lt_irrefl (0 : ℚ)), adjustPixelNonpos,
    show ((v : ℚ) * (1 + 0) = ((v : ℕ) : ℚ)) by ring, goTrunc_natCast, Int.toNat_natCast]

/-! ### Claims -/

/-- C1: for a 1×1 input pair at scale 1, the pixel pipeline
(Desaturate both, Invert(AdjustLightness(Ag, +0.5)),
AdjustLightness(Bg, -0.5), LinearDodgeBlend, DivideBlend with the
linear-dodge result as divisor, compose) reproduces test vectors
S3–S5 exactly: A=B=(128,128,128) yields output pixel (127,127,127,128);
A=(0,0,0), B=(255,255,255) yields (127,127,127,255);
A=(255,255,255), B=(0,0,0) yields (255,255,255,0). -/
theorem BuildPipeline_test_vectors :
    ((BuildPipeline (rgb1 128) (rgb1 128)).r 0 0 = 127 ∧
     (BuildPipeline (rgb1 128) (rgb1 128)).g 0 0 = 127 ∧
     (BuildPipeline (rgb1 128) (rgb1 128)).b 0 0 = 127 ∧
     (BuildPipeline (rgb1 128) (rgb1 128)).a 0 0 = 128) ∧
    ((BuildPipeline (rgb1 0) (rgb1 255)).r 0 0 = 127 ∧
     (BuildPipeline (rgb1 0) (rgb1 255)).g 0 0 = 127 ∧
     (BuildPipeline (rgb1 0) (rgb1 255)).b 0 0 = 127 ∧
     (BuildPipeline (rgb1 0) (rgb1 255)).a 0 0 = 255) ∧
    ((BuildPipeline (rgb1 255) (rgb1 0)).r 0 0 = 255 ∧
     (BuildPipeline (rgb1 255) (rgb1 0)).g 0 0 = 255 ∧
     (BuildPipeline (rgb1 255) (rgb1 0)).b 0 0 = 255 ∧
     (BuildPipeline (rgb1 255) (rgb1 0)).a 0 0 = 0) := by
  have h1 : adjustPixel (1/2) 128 = 191 :=
    adjustPixel_pos_eval 128 191 (by norm_num) (by norm_num) (by norm_num)
  have h2 : adjustPixel (-(1/2)) 128 = 64 :=
    adjustPixel_nonpos_eval 128 64 (by norm_num) (by norm_num) (by norm_num)
  have h3 : adjustPixel (1/2) 0 = 127 :=
    adjustPixel_pos_eval 0 127 (by norm_num) (by norm_num) (by norm_num)
  have h4 : adjustPixel (-(1/2)) 255 = 127 :=
    adjustPixel_nonpos_eval 255 127 (by norm_num) (by norm_num) (by norm_num)
  have h5 : adjustPixel (1/2) 255 = 255 :=
    adjustPixel_pos_eval 255 255 (by norm_num) (by norm_num) (by norm_num)
  have h6 : adjustPixel (-(1/2)) 0 = 0 :=
    adjustPixel_nonpos_eval 0 0 (by norm_num) (by norm_num) (by norm_num)
  refine ⟨⟨?_, ?_, ?_, ?_⟩, ⟨?_, ?_, ?_, ?_⟩, ⟨?_, ?_, ?_, ?_⟩⟩ <;>
    simp only [BuildPipeline, AddMask, Desaturate, AdjustLightness, Invert,
      LinearDodgeBlend, DivideBlend, grayAt_mkGray, mkGray, rgb1, clamp,
      Gray.grayAt] <;>
    norm_num [h1, h2, h3, h4, h5, h6, Nat.shiftRight_eq_div_pow] <;>
    decide

/-- C4: for every RGB pixel whose 16-bit codec channel values are
r, g, b, Desaturate produces
((r >> 8) max (g >> 8) max (b >> 8) + (r >> 8) min (g >> 8) min (b >> 8)) / 2,
reducing each channel to 8 bits by high-byte truncation (not
rounding) and using truncating division by 2. -/
theorem Desaturate_pixel_spec (i : RGBImage) (x y : Nat)
    (hx : x < i.width) (hy : y < i.height)
    (hr : i.r x y ≤ 65535) (hg : i.g x y ≤ 65535) (hb : i.b x y ≤ 65535) :
    (Desaturate i).grayAt x y =
      (Nat.max (Nat.max (i.r x y >>> 8) (i.g x y >>> 8)) (i.b x y >>> 8) +
       Nat.min (Nat.min (i.r x y >>> 8) (i.g x y >>> 8)) (i.b x y >>> 8)) / 2 := by
  have hmono : Monotone (fun n : Nat => n >>> 8) := by
    intro a b hab
    simp only [Nat.shiftRight_eq_div_pow]
    exact Nat.div_le_div_right hab
  have hle : ∀ n : Nat, n ≤ 65535 → n >>> 8 ≤ 255 := by
    intro n hn
    simp only [Nat.shiftRight_eq_div_pow]
    calc n / 2 ^ 8 ≤ 65535 / 2 ^ 8 := Nat.div_le_div_right hn
    _ = 255 := by norm_num
  have hxy : x < i.width ∧ y < i.height := ⟨hx, hy⟩
  simp only [Desaturate, grayAt_mkGray, if_pos hxy]
  rw [hmono.map_max, hmono.map_max, hmono.map_min, hmono.map_min]
  have h1 : Nat.max (Nat.max (i.r x y >>> 8) (i.g x y >>> 8)) (i.b x y >>> 8) ≤ 255 :=
    max_le (max_le (hle _ hr) (hle _ hg)) (hle _ hb)
  have h2 : Nat.min (Nat.min (i.r x y >>> 8) (i.g x y >>> 8)) (i.b x y >>> 8) ≤ 255 :=
    le_trans (min_le_right _ _) (hle _ hb)
  exact Nat.mod_eq_of_lt (by omega)

theorem Desaturate_pixel_spec_witness :
    (Desaturate (rgb1 128)).grayAt 0 0 =
      (Nat.max (Nat.max ((rgb1 128).r 0 0 >>> 8) ((rgb1 128).g 0 0 >>> 8)) ((rgb1 128).b 0 0 >>> 8) +
       Nat.min (Nat.min ((rgb1 128).r 0 0 >>> 8) ((rgb1 128).g 0 0 >>> 8)) ((rgb1 128).b 0 0 >>> 8)) / 2 :=
  Desaturate_pixel_spec (rgb1 128) 0 0 (by decide) (by decide) (by decide) (by decide) (by decide)

/-- C6: Invert is an involution: for every valid gray raster G,
Invert(Invert(G)) == G, Invert mapping each pixel Y to 255 - Y. -/
theorem Invert_involutive (G : Gray) (h : G.Valid) :
    Gray.eqv (Invert (Invert G)) G := by
  refine ⟨rfl, rfl, fun x y => ?_⟩
  have hv := h x y
  by_cases hb : x < G.width ∧ y < G.height
  · simp only [Invert, mkGray_width, mkGray_height, grayAt_mkGray, if_pos hb]
    omega
  · simp only [Invert, mkGray_width, mkGray_height, grayAt_mkGray, if_neg hb]
    rw [Gray.grayAt, if_neg hb]

theorem Invert_involutive_witness :
    Gray.eqv (Invert (Invert (constGray 1 1 7))) (constGray 1 1 7) :=
  Invert_involutive (constGray 1 1 7) (constGray_valid 1 1 7 (by norm_num))

/-- C7: LinearDodgeBlend is commutative on conformant inputs: for
conformant gray rasters X and Y,
LinearDodgeBlend(X, Y) == LinearDodgeBlend(Y, X), each pixel being
clamp8(X + Y). -/
theorem LinearDodgeBlend_comm (X Y : Gray) (h : Conformant X Y) :
    Gray.eqv (LinearDodgeBlend X Y) (LinearDodgeBlend Y X) := by
  obtain ⟨hw, hh⟩ := h
  refine ⟨hw, hh, fun x y => ?_⟩
  simp only [LinearDodgeBlend, grayAt_mkGray, hw, hh]
  by_cases hb : x < Y.width ∧ y < Y.height
  · simp only [if_pos hb, Int.add_comm]
  · simp only [if_neg hb]

theorem LinearDodgeBlend_comm_witness :
    Gray.eqv (LinearDodgeBlend (constGray 1 1 100) (constGray 1 1 200))
      (LinearDodgeBlend (constGray 1 1 200) (constGray 1 1 100)) :=
  LinearDodgeBlend_comm (constGray 1 1 100) (constGray 1 1 200) ⟨rfl, rfl⟩

/-- C8: AdjustLightness at 0 is the identity on every gray raster,
and the two branch formulas (positive and non-positive) agree at 0. -/
theorem AdjustLightness_zero_id :
    (∀ G : Gray, Gray.eqv (AdjustLightness G 0) G) ∧
    (∀ v : Nat, adjustPixelPos 0 v = adjustPixelNonpos 0 v) := by
  constructor
  · intro G
    refine ⟨rfl, rfl, fun x y => ?_⟩
    by_cases hb : x < G.width ∧ y < G.height
    · simp only [AdjustLightness, grayAt_mkGray, if_pos hb, adjustPixel_zero]
    · simp only [AdjustLightness, grayAt_mkGray, if_neg hb]
      rw [Gray.grayAt, if_neg hb]
  · intro v
    rw [adjustPixelPos, adjustPixelNonpos,
      show ((v : ℚ) * (1 - 0) + 255 * 0 = (v : ℚ) * (1 + 0)) by ring]

/-- C5: DivideBlend with a constant all-255 divisor raster is the
identity: DivideBlend(255, Y) == Y at every pixel. -/
theorem DivideBlend_const255_id (Y : Gray) (h : Y.Valid) :
    Gray.eqv (DivideBlend (constGray Y.width Y.height 255) Y) Y := by
  refine ⟨rfl, rfl, fun x y => ?_⟩
  have hv := h x y
  by_cases hb : x < Y.width ∧ y < Y.height
  · simp only [DivideBlend, constGray, mkGray_width, mkGray_height, grayAt_mkGray,
      if_pos hb]
    norm_num
    exact clamp_byte hv
  · simp only [DivideBlend, constGray, mkGray_width, mkGray_height, grayAt_mkGray,
      if_neg hb]
    rw [Gray.grayAt, if_neg hb]

theorem DivideBlend_const255_id_witness :
    Gray.eqv (DivideBlend (constGray 1 1 255) (constGray 1 1 42)) (constGray 1 1 42) :=
  DivideBlend_const255_id (constGray 1 1 42) (constGray_valid 1 1 42 (by norm_num))

/-- C2: for conformant valid gray rasters X (divisor) and Y
(dividend) and every pixel, DivideBlend returns 255 when the divisor
pixel is 0, and otherwise clamp8((Y * 255) / X) with exact (≥ 16-bit)
multiplication and division truncating toward zero. -/
theorem DivideBlend_pixel_spec (X Y : Gray) (x y : Nat)
    (_h1 : X.Valid) (_h2 : Y.Valid) (_hc : Conformant X Y)
    (hx : x < X.width) (hy : y < X.height) :
    (DivideBlend X Y).grayAt x y =
      if X.grayAt x y = 0 then 255
      else min (Y.grayAt x y * 255 / X.grayAt x y) 255 := by
  have hxy : x < X.width ∧ y < X.height := ⟨hx, hy⟩
  simp only [DivideBlend, grayAt_mkGray, if_pos hxy]
  by_cases h0 : X.grayAt x y = 0
  · rw [if_pos h0, if_pos h0]
  · rw [if_neg h0, if_neg h0]
    have hcast : (Y.grayAt x y : ℤ) * 255 / (X.grayAt x y : ℤ)
        = ((Y.grayAt x y * 255 / X.grayAt x y : ℕ) : ℤ) := by
      rw [Int.ofNat_ediv]
      push_cast
      ring_nf
    rw [hcast]
    rcases le_or_lt (Y.grayAt x y * 255 / X.grayAt x y) 255 with hle | hgt
    · rw [clamp_byte hle, min_eq_left hle]
    · rw [min_eq_right (le_of_lt hgt), clamp,
        if_neg (not_lt.mpr (Int.ofNat_nonneg _)),
        if_pos (by exact_mod_cast hgt)]
      rfl

theorem DivideBlend_pixel_spec_witness :
    (DivideBlend (constGray 1 1 2) (constGray 1 1 3)).grayAt 0 0 =
      if (constGray 1 1 2).grayAt 0 0 = 0 then 255
      else min ((constGray 1 1 3).grayAt 0 0 * 255 / (constGray 1 1 2).grayAt 0 0) 255 :=
  DivideBlend_pixel_spec (constGray 1 1 2) (constGray 1 1 3) 0 0
    (constGray_valid 1 1 2 (by norm_num)) (constGray_valid 1 1 3 (by norm_num))
    ⟨rfl, rfl⟩ (by decide) (by decide)

/-- C9: for non-conformant operands the binary stages do not fail:
LinearDodgeBlend, DivideBlend and AddMask each return a raster whose
dimensions equal those of their first operand, and every pixel of the
second operand that lies outside that operand's bounds is read as
gray value 0 (so the stages compute with 0 there). -/
theorem blend_stages_oob (X Y : Gray) (x y : Nat)
    (hx : x < X.width) (hy : y < X.height)
    (ho : Y.width ≤ x ∨ Y.height ≤ y) :
    (LinearDodgeBlend X Y).width = X.width ∧
    (LinearDodgeBlend X Y).height = X.height ∧
    (DivideBlend X Y).width = X.width ∧
    (DivideBlend X Y).height = X.height ∧
    (AddMask X Y).width = X.width ∧
    (AddMask X Y).height = X.height ∧
    Y.grayAt x y = 0 ∧
    (LinearDodgeBlend X Y).grayAt x y
      = (clamp ((X.grayAt x y : Int) + 0) 0 255).toNat % 256 ∧
    (DivideBlend X Y).grayAt x y
      = (if X.grayAt x y = 0 then 255
         else (clamp ((0 : Int) * 255 / (X.grayAt x y : Int)) 0 255).toNat % 256) ∧
    (AddMask X Y).r x y = X.grayAt x y ∧
    (AddMask X Y).a x y = 0 := by
  have hxy : x < X.width ∧ y < X.height := ⟨hx, hy⟩
  have hY0 : Y.grayAt x y = 0 := by
    rw [Gray.grayAt, if_neg (by omega : ¬(x < Y.width ∧ y < Y.height))]
  refine ⟨rfl, rfl, rfl, rfl, rfl, rfl, hY0, ?_, ?_, ?_, ?_⟩
  · simp only [LinearDodgeBlend, grayAt_mkGray, if_pos hxy, hY0, Nat.cast_zero]
  · simp only [DivideBlend, grayAt_mkGray, if_pos hxy, hY0, Nat.cast_zero]
  · simp only [AddMask, if_pos hxy]
  · simp only [AddMask, if_pos hxy, hY0]

theorem blend_stages_oob_witness :
    (LinearDodgeBlend (constGray 2 2 10) (constGray 1 1 5)).width = (constGray 2 2 10).width ∧
    (LinearDodgeBlend (constGray 2 2 10) (constGray 1 1 5)).height = (constGray 2 2 10).height ∧
    (DivideBlend (constGray 2 2 10) (constGray 1 1 5)).width = (constGray 2 2 10).width ∧
    (DivideBlend (constGray 2 2 10) (constGray 1 1 5)).height = (constGray 2 2 10).height ∧
    (AddMask (constGray 2 2 10) (constGray 1 1 5)).width = (constGray 2 2 10).width ∧
    (AddMask (constGray 2 2 10) (constGray 1 1 5)).height = (constGray 2 2 10).height ∧
    (constGray 1 1 5).grayAt 1 0 = 0 ∧
    (LinearDodgeBlend (constGray 2 2 10) (constGray 1 1 5)).grayAt 1 0
      = (clamp (((constGray 2 2 10).grayAt 1 0 : Int) + 0) 0 255).toNat % 256 ∧
    (DivideBlend (constGray 2 2 10) (constGray 1 1 5)).grayAt 1 0
      = (if (constGray 2 2 10).grayAt 1 0 = 0 then 255
         else (clamp ((0 : Int) * 255 / ((constGray 2 2 10).grayAt 1 0 : Int)) 0 255).toNat % 256) ∧
    (AddMask (constGray 2 2 10) (constGray 1 1 5)).r 1 0 = (constGray 2 2 10).grayAt 1 0 ∧
    (AddMask (constGray 2 2 10) (constGray 1 1 5)).a 1 0 = 0 :=
  blend_stages_oob (constGray 2 2 10) (constGray 1 1 5) 1 0
    (by decide) (by decide) (Or.inl (by decide))

/-- C10: for every fixed factor in [-1, 1], the per-pixel
AdjustLightness mapping is monotone non-decreasing in the input gray
value. -/
theorem adjustPixel_monotone {t : ℚ} (h1 : -1 ≤ t) (h2 : t ≤ 1)
    {a b : Nat} (hab : a ≤ b) : adjustPixel t a ≤ adjustPixel t b := by
  have hcast : (a : ℚ) ≤ (b : ℚ) := by exact_mod_cast hab
  by_cases ht : t > 0
  · simp only [adjustPixel, if_pos ht, adjustPixelPos]
    have key : (a : ℚ) * (1 - t) + 255 * t ≤ (b : ℚ) * (1 - t) + 255 * t :=
      add_le_add_right (mul_le_mul_of_nonneg_right hcast (by linarith)) _
    have ha0 : 0 ≤ (a : ℚ) * (1 - t) + 255 * t := by
      have := Nat.cast_nonneg (α := ℚ) a
      nlinarith
    rw [goTrunc_eq_floor ha0, goTrunc_eq_floor (le_trans ha0 key)]
    exact Int.toNat_le_toNat (Int.floor_le_floor key)
  · simp only [adjustPixel, if_neg ht, adjustPixelNonpos]
    have ht' : t ≤ 0 := le_of_not_lt ht
    have key : (a : ℚ) * (1 + t) ≤ (b : ℚ) * (1 + t) :=
      mul_le_mul_of_nonneg_right hcast (by linarith)
    have ha0 : 0 ≤ (a : ℚ) * (1 + t) :=
      mul_nonneg (Nat.cast_nonneg a) (by linarith)
    rw [goTrunc_eq_floor ha0, goTrunc_eq_floor (le_trans ha0 key)]
    exact Int.toNat_le_toNat (Int.floor_le_floor key)

theorem adjustPixel_monotone_witness :
    adjustPixel (1/2) 3 ≤ adjustPixel (1/2) 200 :=
  adjustPixel_monotone (by norm_num) (by norm_num) (by norm_num)

/-- The target dimension `Build` computes (`src/main.go` lines
142–143): `int(float64(n) * shrink)`, truncation toward zero. -/
def buildTargetDim (n : Nat) (s : ℚ) : Int := goTrunc ((n : ℚ) * s)

/-- Modelled from the spec: the resize and codec collaborators are
external (§1).  The resize target is allocated with
`image.Rect(0, 0, width, height)`, which canonicalizes a negative
corner by swapping, so the allocated raster measures the absolute
value of each computed dimension; each pipeline stage then preserves
the bounds of its (first) input. -/
def buildOutputDim (n : Nat) (s : ℚ) : Nat := (buildTargetDim n s).natAbs

/-- Modelled from the spec: the PNG encoder (codec collaborator, §1)
accepts a raster exactly when both dimensions are in (0, 2^32); an
encode error is fatal and aborts the run with a diagnostic (§7), and
only a successful encode produces an output image.  `w`/`h` are the
decoded dimensions of source A, from which `Build` derives the size. -/
def buildProducesOutput (w h : Nat) (s : ℚ) : Bool :=
  decide (0 < buildOutputDim w s ∧ 0 < buildOutputDim h s ∧
    buildOutputDim w s < 2 ^ 32 ∧ buildOutputDim h s < 2 ^ 32)

lemma buildOutputDim_zero (n : Nat) : buildOutputDim n 0 = 0 := by
  rw [buildOutputDim, buildTargetDim,
    show ((n : ℚ) * 0) = (((0 : ℤ) : ℤ) : ℚ) by norm_num, goTrunc_intCast]
  rfl

lemma buildOutputDim_negOne (n : Nat) : buildOutputDim n (-1) = n := by
  rw [buildOutputDim, buildTargetDim,
    show ((n : ℚ) * (-1)) = ((-(n : ℤ) : ℤ) : ℚ) by push_cast; ring, goTrunc_intCast]
  simp [Int.natAbs_neg]

/-- C3 counterexample: the claim "every invocation with scale ≤ 0
fails rather than producing an output image" is false: with a 2×2
source A and scale -1, the computed -2×-2 target canonicalizes to a
2×2 raster, the pipeline runs, and the PNG encode succeeds. -/
theorem scale_nonpos_rejected_counterexample :
    (-1 : ℚ) ≤ 0 ∧ buildProducesOutput 2 2 (-1) = true := by
  constructor
  · norm_num
  · rw [buildProducesOutput]
    rw [decide_eq_true_eq]
    rw [buildOutputDim_negOne]
    norm_num

/-- C3 amended: `Build` performs no scale validation.  Scale 0 makes
both target dimensions 0 and the run aborts at the PNG encode with a
diagnostic, but a negative scale is not rejected: for scale -1 and
any source whose dimensions lie in (0, 2^32), the canonicalized
raster is nonempty and an output image is produced. -/
theorem scale_nonpos_amended :
    (∀ w h : Nat, buildProducesOutput w h 0 = false) ∧
    (∀ w h : Nat, 0 < w → w < 2 ^ 32 → 0 < h → h < 2 ^ 32 →
      buildProducesOutput w h (-1) = true) := by
  constructor
  · intro w h
    rw [buildProducesOutput, decide_eq_false_iff_not]
    rw [buildOutputDim_zero, buildOutputDim_zero]
    norm_num
  · intro w h hw hw2 hh hh2
    rw [buildProducesOutput, decide_eq_true_eq, buildOutputDim_negOne,
      buildOutputDim_negOne]
    exact ⟨hw, hh, hw2, hh2⟩

theorem scale_nonpos_amended_witness : buildProducesOutput 3 3 (-1) = true :=
  scale_nonpos_amended.2 3 3 (by norm_num) (by norm_num) (by norm_num) (by norm_num)
